import Mathlib

/-!
Shallow embedding of the `node-load-sif` document/value parser
(`src/load_sif.js`, the complete draft, which the spec names as its
baseline) together with theorems settling the frozen claims.

Modelling conventions:
* JS strings are modelled as `String` or `List Char` (for the timestamp
  scanner, which indexes by position).
* JS numbers are modelled as `Rat`; `NaN` is modelled as `Option.none`
  where a computation can produce it.  Non-finite results of the JS
  string-to-number coercions cannot be represented in `Rat`; they also
  collapse to `none`.  Inside `parseTime` this is exact: the input is
  lower-cased first, and the case-sensitive `Number` coercion maps
  lower-case "infinity" to NaN.
* Functions that can throw are embedded in `Except String`.
* The XML pull reader (`xml-pulley`, an external collaborator) is
  abstracted away: a parser takes the element tree it would consume.
  Whitespace-only text nodes are already skipped, matching the
  `makePulley` options (trim, normalize, skipWhitespaceOnly).
-/

/-- JS truthiness of a possibly-absent attribute string:
`undefined` and the empty string are falsy. -/
def jsTruthyStr : Option String → Bool
  | none => false
  | some s => !s.isEmpty

/-- ASCII decimal digit test (the regex class `\d`). -/
def isDig (c : Char) : Bool := decide (48 ≤ c.toNat ∧ c.toNat ≤ 57)

/-- Numeric value of a list of decimal digits (most significant first). -/
def decDigitsVal (l : List Char) : Nat :=
  l.foldl (fun a c => 10 * a + (c.toNat - 48)) 0

/-- JS whitespace characters trimmed by the Number coercion
(ASCII subset; exotic Unicode spaces are not modelled). -/
def isJsWs (c : Char) : Bool :=
  c = ' ' ∨ c = '\t' ∨ c = '\n' ∨ c = '\r' ∨ c = '\x0b' ∨ c = '\x0c'

/-- Hex digit value, if the character is a hex digit. -/
def hexVal? (c : Char) : Option Nat :=
  if '0' ≤ c ∧ c ≤ '9' then some (c.toNat - 48)
  else if 'a' ≤ c ∧ c ≤ 'f' then some (c.toNat - 87)
  else if 'A' ≤ c ∧ c ≤ 'F' then some (c.toNat - 55)
  else none

/-- Fold a list of digits in a given base, `none` when a character is out
of range or the list is empty. -/
def radixVal (base : Nat) (l : List Char) : Option Nat :=
  match l with
  | [] => none
  | _ =>
    l.foldlM (fun a c =>
      match hexVal? c with
      | some v => if v < base then some (base * a + v) else none
      | none => none) 0

/-- Exponent suffix of a decimal literal: accepts the empty rest or
`e`/`E` followed by an optionally signed nonempty digit run consuming
the whole rest; scales the mantissa accordingly. -/
def parseExpSuffix (mant : Rat) (rest : List Char) : Option Rat :=
  match rest with
  | [] => some mant
  | e :: r =>
    if e = 'e' ∨ e = 'E' then
      let signed : Bool × List Char :=
        match r with
        | '-' :: r2 => (true, r2)
        | '+' :: r2 => (false, r2)
        | _ => (false, r)
      let ds := signed.2
      if ds.isEmpty ∨ ¬ (ds.all isDig) then none
      else
        let k := decDigitsVal ds
        some (if signed.1 then mant / (10 ^ k : Nat) else mant * (10 ^ k : Nat))
    else none

/-- Unsigned decimal literal `digits [. digits] [exp]` or `. digits [exp]`,
consuming the whole input. -/
def parseDecFull (t : List Char) : Option Rat :=
  let d1 := t.takeWhile isDig
  let r1 := t.dropWhile isDig
  match r1 with
  | [] => if d1.isEmpty then none else some (decDigitsVal d1)
  | '.' :: r2 =>
    let d2 := r2.takeWhile isDig
    let r3 := r2.dropWhile isDig
    if d1.isEmpty ∧ d2.isEmpty then none
    else parseExpSuffix ((decDigitsVal d1 : Rat) + (decDigitsVal d2 : Rat) / ((10 : Rat) ^ d2.length)) r3
  | _ => if d1.isEmpty then none else parseExpSuffix (decDigitsVal d1) r1

/-- ECMAScript `Number(string)` on a character list: `none` models NaN
(and the unrepresentable infinities, see the header comment).  Handles
whitespace trimming, signs, radix prefixes and decimal literals with
exponents; the case-sensitive literal `Infinity` maps to `none`. -/
def jsStringToNumber (s : List Char) : Option Rat :=
  let t := (s.dropWhile isJsWs).reverse.dropWhile isJsWs |>.reverse
  if t.isEmpty then some 0
  else
    let neg : Bool := t.head? = some '-'
    let body := if t.head? = some '-' ∨ t.head? = some '+' then t.tail else t
    let mag : Option Rat :=
      match body with
      | '0' :: x :: r =>
        if x = 'x' ∨ x = 'X' then (radixVal 16 r).map (fun n => (n : Rat))
        else if x = 'o' ∨ x = 'O' then (radixVal 8 r).map (fun n => (n : Rat))
        else if x = 'b' ∨ x = 'B' then (radixVal 2 r).map (fun n => (n : Rat))
        else parseDecFull body
      | _ =>
        if body = "Infinity".toList then none
        else parseDecFull body
    mag.map (fun m => if neg then -m else m)

/-- The coercion pattern `(+s) || 0` used throughout `parseTime`:
NaN (and negative zero) collapse to 0. -/
def jsNumOrZero (s : List Char) : Rat :=
  (jsStringToNumber s).getD 0

/-- Longest match of the regex `-?\d*\.?\d*` at the start of the input
(each piece is greedy; every piece can match empty, so the regex always
matches and never backtracks). -/
def numMatch (s : List Char) : List Char :=
  let p1 : List Char × List Char :=
    if s.head? = some '-' then (['-'], s.tail) else ([], s)
  let d1 := p1.2.takeWhile isDig
  let s2 := p1.2.dropWhile isDig
  let p3 : List Char × List Char :=
    if s2.head? = some '.' then (['.'], s2.tail) else ([], s2)
  let d2 := p3.2.takeWhile isDig
  p1.1 ++ d1 ++ p3.1 ++ d2

/-- JS `String.prototype.split` with a single-character separator.
Always returns a nonempty list of fields. -/
def jsSplit (s : List Char) (sep : Char) : List (List Char) :=
  match s with
  | [] => [[]]
  | c :: r =>
    if c = sep then [] :: jsSplit r sep
    else
      match jsSplit r sep with
      | h :: t => (c :: h) :: t
      | [] => [[c]]

/-- Lower-case a character list (JS `toLowerCase`, ASCII behaviour). -/
def jsToLower (s : List Char) : List Char := s.map Char.toLower

/-- JS `String.prototype.indexOf` for a single character, as an option
(`-1` becomes `none`). -/
def jsIndexOf (l : List Char) (c : Char) : Option Nat :=
  match l with
  | [] => none
  | x :: r => if x = c then some 0 else (jsIndexOf r c).map (· + 1)

/-- One iteration of the scanning loop of `parseTime`
(`load_sif.js` lines 490-546), with explicit fuel standing for the
`for` loop.  `pos` is the loop variable, `value` the accumulator; the
result is `none` only when the fuel runs out.  The `console.warn`
side effects do not affect the returned value and are not modelled. -/
def parseTimeLoop (fuel : Nat) (stamp : List Char) (fps : Rat) (pos : Nat) (value : Rat) : Option Rat :=
  match fuel with
  | 0 => none
  | fuel + 1 =>
    if pos < stamp.length then
      -- const match = /-?\d*\.?\d*/.exec(stamp.substr(pos)) : always matches,
      -- so the `!match` disjunct of the exit test below is never true.
      let m := numMatch (stamp.drop pos)
      let amount := jsNumOrZero m
      let pos2 := pos + m.length
      if stamp.length ≤ pos2 then
        -- if(pos >= stamp.length || !match) { ... return value; }
        some (if amount ≠ 0 then
                (if fps ≠ 0 then value + amount / fps else value + amount)
              else value)
      else
        let code := stamp.getD pos2 ' '
        if code = 'h' then
          parseTimeLoop fuel stamp fps (pos2 + 1) (value + amount * 3600)
        else if code = 'm' then
          parseTimeLoop fuel stamp fps (pos2 + 1) (value + amount * 60)
        else if code = 's' then
          parseTimeLoop fuel stamp fps (pos2 + 1) (value + amount)
        else if code = 'f' then
          parseTimeLoop fuel stamp fps (pos2 + 1)
            (if fps ≠ 0 then value + amount / fps else value)
        else if code = ':' then
          let parts := jsSplit stamp ':'
          if 3 ≤ parts.length then
            let p2 := parts.getD 2 []
            let parts2 :=
              match jsIndexOf p2 '.' with
              | some dot => ((parts ++ [p2.drop (dot + 1)]).set 2 (p2.take dot))
              | none => parts
            let v := jsNumOrZero (parts2.getD 0 []) * 3600
                   + jsNumOrZero (parts2.getD 1 []) * 60
                   + jsNumOrZero (parts2.getD 2 [])
            some (if 4 ≤ parts2.length then
                    (if fps ≠ 0 then v + jsNumOrZero (parts2.getD 3 []) / fps else v)
                  else v)
          else
            -- bad time format: warn and keep scanning
            parseTimeLoop fuel stamp fps (pos2 + 1) value
        else
          -- unexpected unit code: warn, treat as seconds
          parseTimeLoop fuel stamp fps (pos2 + 1) (value + amount)
    else
      some value

/-- `parseTime(stamp, fps)` (`load_sif.js` lines 481-547).  The `fps`
argument is `Option Rat`; `none` models the call sites that omit it or
pass `undefined`/NaN, and the first line `fps = fps || 0` collapses it
to 0.  The loop is run with enough fuel (a fact proved below). -/
def parseTime (stamp0 : List Char) (fpsArg : Option Rat) : Rat :=
  let fps := fpsArg.getD 0
  let stamp := jsToLower stamp0
  if stamp = "sot".toList ∨ stamp = "bot".toList then -32767 * 512
  else if stamp = "eot".toList then 32767 * 512
  else (parseTimeLoop (stamp.length + 1) stamp fps 0 0).getD 0


/-- JS `parseFloat(string)`: longest numeric prefix after leading
whitespace; `none` models NaN (and the unrepresentable `Infinity`,
which collapses with it, see the header comment). -/
def jsParseFloat (s : String) : Option Rat :=
  let t := s.toList.dropWhile isJsWs
  let neg : Bool := t.head? = some '-'
  let t2 := if t.head? = some '-' ∨ t.head? = some '+' then t.tail else t
  if t2.take 8 = "Infinity".toList then none
  else
    let d1 := t2.takeWhile isDig
    let r1 := t2.dropWhile isDig
    let hasDot : Bool := r1.head? = some '.'
    let frac := if hasDot then r1.tail.takeWhile isDig else []
    if d1.isEmpty ∧ frac.isEmpty then none
    else
      let r2 := if hasDot then r1.tail.dropWhile isDig else r1
      let expScale : Rat :=
        match r2 with
        | 'e' :: rest =>
          match rest with
          | '-' :: ds =>
            if (ds.takeWhile isDig).isEmpty then 1
            else 1 / (10 : Rat) ^ decDigitsVal (ds.takeWhile isDig)
          | '+' :: ds =>
            if (ds.takeWhile isDig).isEmpty then 1
            else (10 : Rat) ^ decDigitsVal (ds.takeWhile isDig)
          | ds =>
            if (ds.takeWhile isDig).isEmpty then 1
            else (10 : Rat) ^ decDigitsVal (ds.takeWhile isDig)
        | 'E' :: rest =>
          match rest with
          | '-' :: ds =>
            if (ds.takeWhile isDig).isEmpty then 1
            else 1 / (10 : Rat) ^ decDigitsVal (ds.takeWhile isDig)
          | '+' :: ds =>
            if (ds.takeWhile isDig).isEmpty then 1
            else (10 : Rat) ^ decDigitsVal (ds.takeWhile isDig)
          | ds =>
            if (ds.takeWhile isDig).isEmpty then 1
            else (10 : Rat) ^ decDigitsVal (ds.takeWhile isDig)
        | _ => 1
      let mant := (decDigitsVal d1 : Rat) + (decDigitsVal frac : Rat) / (10 : Rat) ^ frac.length
      some ((if neg then -1 else 1) * mant * expScale)

/-- JS `parseInt(string)` with no radix argument: optional sign, then a
hex literal after `0x`/`0X` or a decimal digit prefix; `none` models NaN. -/
def jsParseInt (s : String) : Option Int :=
  let t := s.toList.dropWhile isJsWs
  let neg : Bool := t.head? = some '-'
  let t2 := if t.head? = some '-' ∨ t.head? = some '+' then t.tail else t
  let sign : Int := if neg then -1 else 1
  if t2.take 2 = ['0', 'x'] ∨ t2.take 2 = ['0', 'X'] then
    let ds := (t2.drop 2).takeWhile (fun c => (hexVal? c).isSome)
    if ds.isEmpty then none
    else some (sign * (ds.foldl (fun a c => 16 * a + ((hexVal? c).getD 0)) 0 : Nat))
  else
    let ds := t2.takeWhile isDig
    if ds.isEmpty then none
    else some (sign * (decDigitsVal ds : Int))

-- ============ the element tree consumed by the parsers ============

mutual
inductive Element where
  | mk (name : String) (attrs : List (String × String)) (children : List Child)
inductive Child where
  | elem (e : Element)
  | text (s : String)
end

def Element.name : Element → String
  | .mk n _ _ => n

def Element.attrs : Element → List (String × String)
  | .mk _ a _ => a

def Element.children : Element → List Child
  | .mk _ _ c => c

mutual
/-- Structural size of an element, used as the recursion-depth fuel of
the parsers below; it strictly exceeds the nesting depth. -/
def elemFuel : Element → Nat
  | .mk _ _ cs => childListFuel cs + 1
def childFuel : Child → Nat
  | .elem e => elemFuel e + 1
  | .text _ => 1
def childListFuel : List Child → Nat
  | [] => 1
  | c :: r => childFuel c + childListFuel r
end

/-- Attribute lookup (`tag.attributes[k]`). -/
def Element.attr (e : Element) (k : String) : Option String :=
  ((e.attrs).find? (fun p => p.1 == k)).map (fun p => p.2)

/-- Modelled from the spec: the Tag Reader operation `readText` consumes
the current element text content, `{text, rawText}` (empty when the
element has none); a non-text child is a reader error. -/
def readTextOf (children : List Child) : Except String String :=
  match children with
  | [] => .ok ""
  | [Child.text s] => .ok s
  | _ => .error "Expected text"

-- ============ value data model ============

/-- Interpolation modes.  Modelled from the spec: the constants of the
missing module interpolation.js (HALT, CONSTANT, LINEAR, MANUAL, TCB,
CLAMPED, UNDEFINED). -/
inductive Interp where
  | halt
  | const
  | linear
  | manual
  | tcb
  | clamped
  | undef
deriving DecidableEq

/-- Modelled from the spec: a 2D point (types/vector.js is outside src);
coordinates are JS numbers (`none` = NaN). -/
structure Vec where
  x : Option Rat
  y : Option Rat
deriving DecidableEq

/-- Modelled from the spec: `Vector.create(x, y)`. -/
def Vector.create (x y : Option Rat) : Vec := { x := x, y := y }

/-- Modelled from the spec: `Vector.create()` with default coordinates. -/
def Vector.create0 : Vec := { x := some 0, y := some 0 }

/-- Modelled from the spec: an RGBA color (types/color.js is outside src). -/
structure Col where
  r : Option Rat
  g : Option Rat
  b : Option Rat
  a : Option Rat
deriving DecidableEq

/-- Modelled from the spec: `Color.create(r, g, b, a)`. -/
def Color.create (r g b a : Option Rat) : Col := { r := r, g := g, b := b, a := a }

/-- Modelled from the spec: `Color.create(0)`, all channels initialized
from the single argument. -/
def Color.create1 (v : Option Rat) : Col := { r := v, g := v, b := v, a := v }

/-- Modelled from the spec: a line segment of four named 2D control
points (types/segment.js is outside src), unset by default. -/
structure Seg where
  p1 : Option Vec
  t1 : Option Vec
  p2 : Option Vec
  t2 : Option Vec
deriving DecidableEq

/-- Modelled from the spec: `Segment.create()`. -/
def Segment.create : Seg := { p1 := none, t1 := none, p2 := none, t2 := none }

mutual
/-- `ValueBase` object: type tag, `data`, and the two animation
modifiers; a `none` field models a JS field never assigned. -/
inductive Value where
  | mk (type : String) (data : Option VData) (static : Option Bool)
       (interpolation : Option Interp)
/-- The `data` payload of a literal value, by variant.  JS numbers are
`Option Rat` with `none` = NaN.  The angle variants store the degree
coefficient: the JS value is that number times pi over 180, a fixed
real factor outside `Rat`. -/
inductive VData where
  | real (x : Option Rat)
  | time (t : Rat)
  | integer (n : Option Int)
  | str (s : String)
  | vector (v : Vec)
  | color (c : Col)
  | segment (s : Seg)
  | gradient (stops : List (Option Rat × Option VData))
  | bool (b : Bool)
  | angle (degrees : Option Rat)
  | transformation (t : TransV)
  | list (xs : List Value)
/-- Modelled from the spec: a 2D transformation (types/transformation.js
is outside src); the source stores `value.data` of the children before
type-checking them, so the fields hold raw payloads. -/
inductive TransV where
  | mk (offset : Option VData) (angle : Option VData) (skew : Option VData)
       (scale : Option VData)
end

def Value.type : Value → String
  | .mk t _ _ _ => t

def Value.data : Value → Option VData
  | .mk _ d _ _ => d

def Value.static : Value → Option Bool
  | .mk _ _ s _ => s

def Value.interpolation : Value → Option Interp
  | .mk _ _ _ i => i

/-- Modelled from the spec: `Transformation.create()`. -/
def Transformation.create : TransV := .mk none none none none

/-- Modelled from the spec: `Gradient.create()` - an empty stop list. -/
def Gradient.create : List (Option Rat × Option VData) := []

/-- Modelled from the spec: `Gradient.addStop` appends a stop in
encounter order. -/
def Gradient.addStop (g : List (Option Rat × Option VData)) (pos : Option Rat)
    (d : Option VData) : List (Option Rat × Option VData) :=
  g ++ [(pos, d)]

-- ============ attribute readers (load_sif.js lines 405-435) ============

/-- `parseValueAttribute(pulley)`: the element must have no children (the
reader must see the closing tag right away); the `value` attribute is
checked for truthiness after the tag is closed. -/
def parseValueAttribute (e : Element) : Except String String :=
  match e.children with
  | [] =>
    let value := e.attr "value"
    if jsTruthyStr value then .ok (value.getD "")
    else .error ("<" ++ e.name ++ "> is missing attribute value")
  | _ => .error ("Expected closing tag for <" ++ e.name ++ ">")

/-- `readStatic(tag)` (lines 414-421). -/
def readStatic (e : Element) : Except String Bool :=
  match e.attr "static" with
  | some "0" => .ok false
  | some "false" => .ok false
  | none => .ok false
  | some "1" => .ok true
  | some "true" => .ok true
  | some v => .error ("Invalid value for static: " ++ v)

/-- `readInterpolation(tag)` (lines 423-435). -/
def readInterpolation (e : Element) : Except String Interp :=
  match e.attr "interpolation" with
  | some "halt" => .ok .halt
  | some "constant" => .ok .const
  | some "linear" => .ok .linear
  | some "manual" => .ok .manual
  | some "auto" => .ok .tcb
  | some "clamped" => .ok .clamped
  | none => .ok .undef
  | some v => .error ("Invalid value for interpolation: " ++ v)

-- ============ parseValue (load_sif.js lines 227-403) ============

/-- Result of the variant dispatch switch of `parseValue`: `early` is an
explicit `return` inside the switch, `thru` is a `break` that falls
through to the `static`/`interpolation` reads. -/
inductive VBody where
  | early (r : Option Value)
  | thru (d : Option VData)

/-- The `<vector>` child loop (no recursion: children carry bare text). -/
def vectorKids (children : List Child) (v : Vec) : Except String Vec :=
  match children with
  | [] => .ok v
  | Child.text _ :: _ => .error "Expected opentag"
  | Child.elem (Element.mk nm _ kids) :: rest =>
    match readTextOf kids with
    | .error msg => .error msg
    | .ok t =>
      let value := jsParseFloat t
      if nm = "x" then vectorKids rest { v with x := value }
      else if nm = "y" then vectorKids rest { v with y := value }
      else .error ("Unexpected element in <vector>: <" ++ nm ++ ">")

/-- The `<color>` child loop (no recursion: children carry bare text). -/
def colorKids (children : List Child) (c : Col) : Except String Col :=
  match children with
  | [] => .ok c
  | Child.text _ :: _ => .error "Expected opentag"
  | Child.elem (Element.mk nm _ kids) :: rest =>
    match readTextOf kids with
    | .error msg => .error msg
    | .ok t =>
      let value := jsParseFloat t
      if nm = "r" then colorKids rest { c with r := value }
      else if nm = "g" then colorKids rest { c with g := value }
      else if nm = "b" then colorKids rest { c with b := value }
      else if nm = "a" then colorKids rest { c with a := value }
      else .error ("Unexpected element in <color>: <" ++ nm ++ ">")


/-- The `<segment>` child loop, parameterized by the recursive value
parser.  The source assigns `col.p1` and friends, but `col` is
block-scoped to the `color` case of the switch, so the assignment
throws a ReferenceError at runtime once a well-typed child is
reached. -/
def segmentKids (parseValue : Element → Except String (Option Value)) :
    List Child → Seg → Except String Seg
  | [], sg => .ok sg
  | Child.text _ :: _, _ => .error "Expected opentag"
  | Child.elem (Element.mk nm _ kids) :: _, _ =>
    match kids with
    | Child.elem inner :: _ =>
      match parseValue inner with
      | .error msg => .error msg
      | .ok v? =>
        match v? with
        | none => .error "Expected <vector> in <segment>"
        | some v =>
          if v.type ≠ "vector" then .error "Expected <vector> in <segment>"
          else if nm = "p1" ∨ nm = "t1" ∨ nm = "p2" ∨ nm = "t2" then
            .error "ReferenceError: col is not defined"
          else .error ("Unexpected element in <segment>: <" ++ nm ++ ">")
    | _ => .error "Expected opentag"

/-- The `<gradient>` child loop: `checkName('color')`, parse the color,
then require a truthy `pos` attribute. -/
def gradientKids (parseValue : Element → Except String (Option Value)) :
    List Child → List (Option Rat × Option VData) →
      Except String (List (Option Rat × Option VData))
  | [], g => .ok g
  | Child.text _ :: _, _ => .error "Expected opentag"
  | Child.elem el :: rest, g =>
    if el.name ≠ "color" then .error "Expected <color> in <gradient>"
    else
      match parseValue el with
      | .error msg => .error msg
      | .ok v? =>
        if ¬ jsTruthyStr (el.attr "pos") then
          .error "gradient color is missing attribute pos"
        else
          match v? with
          | none => .error "TypeError: cannot read data of undefined"
          | some v =>
            gradientKids parseValue rest
              (Gradient.addStop g (jsParseFloat ((el.attr "pos").getD "")) v.data)

/-- The `<transformation>` child loop: the child data is stored before
its type is checked; an undefined child value is dereferenced
(`value.data`), a TypeError. -/
def transformationKids (parseValue : Element → Except String (Option Value)) :
    List Child → TransV → Except String TransV
  | [], t => .ok t
  | Child.text _ :: _, _ => .error "Expected opentag"
  | Child.elem (Element.mk nm _ kids) :: rest, t =>
    match kids with
    | Child.elem inner :: restInner =>
      match parseValue inner with
      | .error msg => .error msg
      | .ok v? =>
        if nm = "offset" ∨ nm = "angle" ∨ nm = "skew_angle" ∨ nm = "scale" then
          match v? with
          | none => .error "TypeError: cannot read data of undefined"
          | some v =>
            let t2 : TransV :=
              match t with
              | .mk o a sk sc =>
                if nm = "offset" then .mk v.data a sk sc
                else if nm = "angle" then .mk o v.data sk sc
                else if nm = "skew_angle" then .mk o a v.data sc
                else .mk o a sk v.data
            let expected := if nm = "offset" ∨ nm = "scale" then "vector" else "angle"
            if v.type ≠ expected then
              .error ("Expected <transformation> child <" ++ nm ++ "> to be " ++ expected)
            else if restInner.isEmpty then transformationKids parseValue rest t2
            else .error ("Expected closing tag for <" ++ nm ++ ">")
        else .error ("Unexpected element in <transformation>: <" ++ nm ++ ">")
    | _ => .error "Expected opentag"

/-- The `<list>` child loop: each child must itself parse as a value. -/
def listKids (parseValue : Element → Except String (Option Value)) :
    List Child → Except String (List Value)
  | [] => .ok []
  | Child.text _ :: _ => .error "Expected opentag"
  | Child.elem el :: rest =>
    match parseValue el with
    | .error msg => .error msg
    | .ok none => .error ("Expected list item to be a value; got <" ++ el.name ++ ">")
    | .ok (some v) =>
      match listKids parseValue rest with
      | .error msg => .error msg
      | .ok xs => .ok (v :: xs)

/-- The variant switch of `parseValue` (the body before the
`static`/`interpolation` reads), parameterized by the recursive value
parser used on nested children. -/
def parseValueBody (parseValue : Element → Except String (Option Value))
    (e : Element) : Except String VBody :=
  if e.name = "real" then
    match parseValueAttribute e with
    | .error msg => .error msg
    | .ok s => .ok (.thru (some (.real (jsParseFloat s))))
  else if e.name = "time" then
    match parseValueAttribute e with
    | .error msg => .error msg
    | .ok s => .ok (.thru (some (.time (parseTime s.toList none))))
  else if e.name = "integer" then
    match parseValueAttribute e with
    | .error msg => .error msg
    | .ok s => .ok (.thru (some (.integer (jsParseInt s))))
  else if e.name = "string" then
    match readTextOf e.children with
    | .error msg => .error msg
    | .ok s => .ok (.thru (some (.str s)))
  else if e.name = "vector" then
    match vectorKids e.children Vector.create0 with
    | .error msg => .error msg
    | .ok v => .ok (.thru (some (.vector v)))
  else if e.name = "color" then
    match colorKids e.children (Color.create1 (some 0)) with
    | .error msg => .error msg
    | .ok c => .ok (.thru (some (.color c)))
  else if e.name = "segment" then
    match segmentKids parseValue e.children Segment.create with
    | .error msg => .error msg
    | .ok sg => .ok (.thru (some (.segment sg)))
  else if e.name = "gradient" then
    match gradientKids parseValue e.children Gradient.create with
    | .error msg => .error msg
    | .ok g => .ok (.thru (some (.gradient g)))
  else if e.name = "bool" then
    match parseValueAttribute e with
    | .error msg => .error msg
    | .ok s =>
      if s = "true" ∨ s = "1" then .ok (.thru (some (.bool true)))
      else if s = "false" ∨ s = "0" then .ok (.thru (some (.bool false)))
      else .error ("Bad value " ++ s ++ " in <bool>")
  else if e.name = "angle" ∨ e.name = "degrees" ∨ e.name = "radians"
      ∨ e.name = "rotations" then
    -- Synfig parses all of these as degrees (times pi over 180 on read).
    match parseValueAttribute e with
    | .error msg => .error msg
    | .ok s => .ok (.thru (some (.angle (jsParseFloat s))))
  else if e.name = "transformation" then
    match transformationKids parseValue e.children Transformation.create with
    | .error msg => .error msg
    | .ok t => .ok (.thru (some (.transformation t)))
  else if e.name = "list" then
    match listKids parseValue e.children with
    | .error msg => .error msg
    -- `return out`: skips the static and interpolation reads below,
    -- leaving both fields unassigned.
    | .ok xs => .ok (.early (some (Value.mk e.name (some (.list xs)) none none)))
  else if e.name = "bline_point" ∨ e.name = "guid" ∨ e.name = "width_point"
      ∨ e.name = "dash_item" ∨ e.name = "canvas" then
    -- bare `return`: undefined, not a value
    .ok (.early none)
  else
    -- default: `break` - falls through to the static/interpolation reads
    -- with `out.data` never assigned
    .ok (.thru none)

/-- `parseValue` with an explicit recursion-depth bound: the recursion
of the source is bounded by the element nesting depth; the wrapper
below supplies ample fuel, so the fuel-out branch is unreachable. -/
def parseValueF : Nat → Element → Except String (Option Value)
  | 0, _ => .error "recursion depth exceeded"
  | fuel + 1, e =>
    match parseValueBody (parseValueF fuel) e with
    | .error msg => .error msg
    | .ok (.early r) => .ok r
    | .ok (.thru d) =>
      match readStatic e with
      | .error msg => .error msg
      | .ok st =>
        match readInterpolation e with
        | .error msg => .error msg
        | .ok ip => .ok (some (Value.mk e.name d (some st) (some ip)))

/-- `parseValue(pulley, canvas)`: parses one literal value element.  The
`canvas` argument of the source is passed through to recursive calls but
never consulted, so it is omitted.  Returns `ok none` where the source
returns `undefined`.  `elemFuel e` strictly exceeds the nesting depth of
`e`, so the fuel never runs out. -/
def parseValue (e : Element) : Except String (Option Value) :=
  parseValueF (elemFuel e) e


-- ============ reference registry, nodes, canvases ============

/-- A value node allocated during the parse; `nid` is the allocation
identity standing in for JS object reference equality.  Modelled from
the spec: `VNConst.create(value)` wraps one Value as a constant node
(value_nodes/const.js is outside src); only constant nodes can be
produced, because the structural node parsers are missing from the
module (see `parseValueNode`). -/
structure Node where
  nid : Nat
  value : Value

/-- `Keyframe.create(time, active, desc)`.  Modelled from the spec:
(time, active flag, description) triple (types/keyframe.js is outside
src). -/
structure Keyframe where
  time : Rat
  active : Bool
  desc : String
deriving DecidableEq

/-- The scalar and aggregate fields of a canvas (see spec section 3). -/
structure CanvasData where
  guid : String := ""
  id : Option String := none
  version : Option String := none
  width : Option Int := none
  height : Option Int := none
  xres : Option Rat := none
  yres : Option Rat := none
  fps : Option Rat := none
  timeStart : Option Rat := none
  timeEnd : Option Rat := none
  antialias : Option Int := none
  tl : Option Vec := none
  br : Option Vec := none
  bgcolor : Option Col := none
  focus : Option Vec := none
  name : Option String := none
  desc : Option String := none
  author : Option String := none
  keyframes : List Keyframe := []
  valueNodes : List (String × Node) := []
  metadata : List (String × String) := []

/-- A canvas: its data plus the ownership link to its parent. -/
inductive CanvasV where
  | mk (data : CanvasData) (parent : Option CanvasV)

def CanvasV.data : CanvasV → CanvasData
  | .mk d _ => d

def CanvasV.parent : CanvasV → Option CanvasV
  | .mk _ p => p

def CanvasV.withData (c : CanvasV) (f : CanvasData → CanvasData) : CanvasV :=
  match c with
  | .mk d p => .mk (f d) p

def CanvasV.withParent (c : CanvasV) (p : Option CanvasV) : CanvasV :=
  match c with
  | .mk d _ => .mk d p

/-- Modelled from the spec: `Canvas.create()` - a fresh canvas with
default fields and no parent (types/canvas.js is outside src). -/
def Canvas.create : CanvasV := .mk {} none

/-- Modelled from the spec: `Canvas.childCanvas(parent, id)` creates a
child canvas linked to the given parent, keyed by `id` in the parent.
The source calls it with its own still-unassigned local variable as the
parent, hence the `Option`; with no parent the keying cannot be
recorded. -/
def Canvas.childCanvas (parent : Option CanvasV) (_id : Option String) : CanvasV :=
  .mk {} parent

/-- Modelled from the spec: `Canvas.getRoot` walks the parent links up
to the root. -/
def Canvas.getRoot (c : CanvasV) : CanvasV :=
  match c with
  | .mk d none => .mk d none
  | .mk _ (some p) => Canvas.getRoot p

/-- Modelled from the spec: `Canvas.addValueNode(canvas, node, id)`
registers the node in the canvas-local definitions map. -/
def Canvas.addValueNode (c : CanvasV) (node : Node) (id : String) : CanvasV :=
  c.withData (fun d => { d with valueNodes := (id, node) :: d.valueNodes })

/-- Modelled from the spec: `Canvas.addKeyframe` appends in order. -/
def Canvas.addKeyframe (c : CanvasV) (kf : Keyframe) : CanvasV :=
  c.withData (fun d => { d with keyframes := d.keyframes ++ [kf] })

/-- A registry entry: canvases and value nodes share one map in the
source (guid.js). -/
inductive RegObj where
  | vnode (n : Node)
  | cnv (c : CanvasV)

/-- Parser state: the process-scoped reference registry plus the
counters backing `Guid.generate` and node allocation. -/
structure St where
  registry : List (String × RegObj) := []
  guidCtr : Nat := 0
  nodeCtr : Nat := 0

/-- Modelled from the spec: registry lookup.  `Guid.exists` is
`isSome` of this, `Guid.get` its value. -/
def Guid.lookup (g : String) (st : St) : Option RegObj :=
  ((st.registry).find? (fun p => p.1 == g)).map (fun p => p.2)

/-- Modelled from the spec: `Guid.set` - last write wins. -/
def Guid.set (g : String) (o : RegObj) (st : St) : St :=
  { st with registry := (g, o) :: st.registry }

/-- Modelled from the spec: `Guid.generate()` produces a fresh globally
unique id; the source draws random GUIDs, the model draws from a
counter. -/
def Guid.generate (n : Nat) : String :=
  "generated-" ++ toString n

def guidXorChars : List Char → List Char → List Char
  | [], ys => ys
  | xs, [] => xs
  | x :: xs, y :: ys => Char.ofNat (x.toNat ^^^ y.toNat) :: guidXorChars xs ys

/-- Modelled from the spec: `scopeTransform(id, rootId)` combines a
local reference id with the owning root canvas id so canvas-local ids
do not collide across documents (the source calls `Guid.xor` from the
missing guid.js); modelled as character-wise codepoint XOR, keeping the
tail of the longer argument. -/
def Guid.xor (a b : String) : String := ⟨guidXorChars a.toList b.toList⟩

-- ============ parseValueNode (load_sif.js lines 179-225) ============

/-- The part of `parseValueNode` after the reference-id handling, with
`guid` the transformed or freshly generated id and `st` the state after
any `Guid.generate` call.  The structural node parsers named in the
dispatch table (`parseAnimated`, `parseStaticList`, `parseDynamicList`)
and `parseLinkableValueNode` are not defined anywhere in the module, so
evaluating the dispatch object literal throws a ReferenceError; only
the literal-value path completes. -/
def parseValueNodeBody (e : Element) (canvas : CanvasV) (st : St) (guid : String) :
    Except String (RegObj × CanvasV × St) :=
  if e.name ≠ "canvas" then
    match parseValue e with
    | .error msg => .error msg
    | .ok (some value) =>
      -- node = VNConst.create(value)
      let node : Node := { nid := st.nodeCtr, value := value }
      let st1 := { st with nodeCtr := st.nodeCtr + 1 }
      -- if(attrs['id']) Canvas.addValueNode(canvas, node, attrs['id'])
      let canvas1 :=
        if jsTruthyStr (e.attr "id") then
          Canvas.addValueNode canvas node ((e.attr "id").getD "")
        else canvas
      -- Guid.set(guid, node); return node
      .ok (.vnode node, canvas1, Guid.set guid (.vnode node) st1)
    | .ok none => .error "ReferenceError: parseAnimated is not defined"
  else .error "ReferenceError: parseAnimated is not defined"

/-- `parseValueNode(pulley, canvas)`: reference handling - a truthy
`guid` attribute is transformed against the root canvas id; if the
transformed id is registered the subtree is skipped and the registered
object returned; otherwise a fresh id is generated when none was
given. -/
def parseValueNode (e : Element) (canvas : CanvasV) (st : St) :
    Except String (RegObj × CanvasV × St) :=
  let guidAttr := e.attr "guid"
  if jsTruthyStr guidAttr then
    let g := Guid.xor (guidAttr.getD "") (Canvas.getRoot canvas).data.guid
    match Guid.lookup g st with
    | some o => .ok (o, canvas, st)   -- pulley.skipTag(); return Guid.get(guid)
    | none => parseValueNodeBody e canvas st g
  else
    parseValueNodeBody e canvas { st with guidCtr := st.guidCtr + 1 }
      (Guid.generate st.guidCtr)

-- ============ keyframes, metadata, layers (lines 437-478) ============

/-- `parseKeyframe(pulley, canvas)` (lines 437-451).  `canvas` may be
absent (`canvas = canvas || \x7b\x7d`); only the `time` attribute is
checked; `active` is true unless the attribute is literally the string
false or 0. -/
def parseKeyframe (e : Element) (canvas : Option CanvasV) : Except String Keyframe :=
  let fps : Option Rat := canvas.bind (fun c => c.data.fps)
  if e.name ≠ "keyframe" then .error "Expected <keyframe>"
  else
    match e.attr "time" with
    | none => .error "<keyframe> is missing attribute time"
    | some time =>
      let active := e.attr "active"
      match readTextOf e.children with
      | .error msg => .error msg
      | .ok txt =>
        .ok { time := parseTime time.toList fps,
              active := (active != some "false") && (active != some "0"),
              desc := txt }

/-- The metadata keys whose content historically uses a comma decimal
separator, normalized to a dot on read. -/
def metaNormalizeKeys : List String :=
  ["background_first_color", "background_second_color", "background_size",
   "grid_color", "grid_size", "jack_offset"]

/-- `parseMetaInto(pulley, canvas)` (lines 453-474). -/
def parseMetaInto (e : Element) (canvas : CanvasV) : Except String CanvasV :=
  if e.name ≠ "meta" then .error "Expected <meta>"
  else
    match e.attr "name", e.attr "content" with
    | none, _ => .error "<meta> is missing attribute name"
    | some _, none => .error "<meta> is missing attribute content"
    | some nm, some content0 =>
      let content :=
        if metaNormalizeKeys.contains nm then
          content0.map (fun ch => if ch = ',' then '.' else ch)
        else content0
      if e.children.isEmpty then
        .ok (canvas.withData (fun d => { d with metadata := (nm, content) :: d.metadata }))
      else .error "Expected closing tag for <meta>"

/-- `parseLayer` (lines 476-478): not implemented in this draft. -/
def parseLayer (_e : Element) (_canvas : CanvasV) : Except String Unit :=
  .error "layer not implemented"

/-- True when an integer attribute parse came out below 1 (NaN compares
false, as in JS). -/
def intLtOne : Option Int → Bool
  | some n => n < 1
  | none => false

/-- The scalar-attribute section of `parseCanvas` (lines 54-114),
applied to the freshly created canvas. -/
def parseCanvasAttrs (e : Element) (inline : Bool) (c0 : CanvasV) : Except String CanvasV := do
  let c := if !inline && jsTruthyStr (e.attr "id") then
      c0.withData (fun d => { d with id := e.attr "id" }) else c0
  let c := if jsTruthyStr (e.attr "version") then
      c.withData (fun d => { d with version := e.attr "version" }) else c
  let c ← if jsTruthyStr (e.attr "width") then
      let w := jsParseInt ((e.attr "width").getD "")
      if intLtOne w then
        Except.error "Canvas with width or height less than one is not allowed"
      else pure (c.withData (fun d => { d with width := w }))
    else pure c
  let c ← if jsTruthyStr (e.attr "height") then
      let h := jsParseInt ((e.attr "height").getD "")
      if intLtOne h then
        Except.error "Canvas with width or height less than one is not allowed"
      else pure (c.withData (fun d => { d with height := h }))
    else pure c
  let c := if jsTruthyStr (e.attr "xres") then
      c.withData (fun d => { d with xres := jsParseFloat ((e.attr "xres").getD "") }) else c
  let c := if jsTruthyStr (e.attr "yres") then
      c.withData (fun d => { d with yres := jsParseFloat ((e.attr "yres").getD "") }) else c
  let c := if jsTruthyStr (e.attr "fps") then
      c.withData (fun d => { d with fps := jsParseFloat ((e.attr "fps").getD "") }) else c
  let c := if jsTruthyStr (e.attr "begin-time") || jsTruthyStr (e.attr "start-time") then
      let bt := if jsTruthyStr (e.attr "begin-time") then e.attr "begin-time"
        else e.attr "start-time"
      c.withData (fun d =>
        { d with timeStart := some (parseTime ((bt).getD "").toList d.fps) })
    else c
  let c := if jsTruthyStr (e.attr "end-time") then
      c.withData (fun d =>
        { d with timeEnd := some (parseTime ((e.attr "end-time").getD "").toList d.fps) })
    else c
  let c := if jsTruthyStr (e.attr "antialias") then
      c.withData (fun d => { d with antialias := jsParseInt ((e.attr "antialias").getD "") })
    else c
  let c ← if jsTruthyStr (e.attr "view-box") then
      let vs := (jsSplit ((e.attr "view-box").getD "").toList ' ').map (fun l => String.mk l)
      if vs.length ≠ 4 then
        Except.error ("view-box has 4 parameters; " ++ toString vs.length ++ " given")
      else pure (c.withData (fun d =>
        { d with tl := some (Vector.create (jsParseFloat (vs.getD 0 "")) (jsParseFloat (vs.getD 1 ""))),
                 br := some (Vector.create (jsParseFloat (vs.getD 2 "")) (jsParseFloat (vs.getD 3 ""))) }))
    else pure c
  let c ← if jsTruthyStr (e.attr "bgcolor") then
      let vs := (jsSplit ((e.attr "bgcolor").getD "").toList ' ').map (fun l => String.mk l)
      if vs.length ≠ 4 then
        Except.error ("bgcolor has 4 parameters; " ++ toString vs.length ++ " given")
      else pure (c.withData (fun d =>
        { d with bgcolor := some (Color.create (jsParseFloat (vs.getD 0 ""))
            (jsParseFloat (vs.getD 1 "")) (jsParseFloat (vs.getD 2 ""))
            (jsParseFloat (vs.getD 3 ""))) }))
    else pure c
  let c ← if jsTruthyStr (e.attr "focus") then
      let vs := (jsSplit ((e.attr "focus").getD "").toList ' ').map (fun l => String.mk l)
      if vs.length ≠ 2 then
        Except.error ("focus has 2 parameters; " ++ toString vs.length ++ " given")
      else pure (c.withData (fun d =>
        { d with focus := some (Vector.create (jsParseFloat (vs.getD 0 ""))
            (jsParseFloat (vs.getD 1 ""))) }))
    else pure c
  pure c

-- ============ parseCanvas (load_sif.js lines 36-177) ============

/-- The child loop of `parseCanvas` (lines 116-163), parameterized by
the defs parser used for `<defs>` children. -/
def parseCanvasKids
    (parseCanvasDefs : List Child → CanvasV → St → Except String (CanvasV × St)) :
    List Child → Bool → CanvasV → St → Except String (CanvasV × St)
  | [], _, canvas, st => .ok (canvas, st)
  | Child.text _ :: _, _, _, _ => .error "Expected opentag"
  | Child.elem el :: rest, inline, canvas, st =>
    if el.name = "defs" then
      if inline then .error "Inline canvases cannot have defs"
      else
        match parseCanvasDefs el.children canvas st with
        | .error msg => .error msg
        | .ok (canvas1, st1) => parseCanvasKids parseCanvasDefs rest inline canvas1 st1
    else if el.name = "bones" then
      -- warn: bones are unsupported; skip the subtree
      parseCanvasKids parseCanvasDefs rest inline canvas st
    else if el.name = "keyframe" then
      if inline then
        -- warn: inline canvases cannot have keyframes; skip the subtree
        parseCanvasKids parseCanvasDefs rest inline canvas st
      else
        match parseKeyframe el (some canvas) with
        | .error msg => .error msg
        | .ok kf =>
          parseCanvasKids parseCanvasDefs rest inline (Canvas.addKeyframe canvas kf) st
    else if el.name = "meta" then
      if inline then
        -- warn: inline canvases cannot have metadata; skip the subtree
        parseCanvasKids parseCanvasDefs rest inline canvas st
      else
        match parseMetaInto el canvas with
        | .error msg => .error msg
        | .ok canvas1 => parseCanvasKids parseCanvasDefs rest inline canvas1 st
    else if el.name = "name" ∨ el.name = "desc" ∨ el.name = "author" then
      match readTextOf el.children with
      | .error msg => .error msg
      | .ok txt =>
        let canvas1 := canvas.withData (fun d =>
          if el.name = "name" then { d with name := some txt }
          else if el.name = "desc" then { d with desc := some txt }
          else { d with author := some txt })
        parseCanvasKids parseCanvasDefs rest inline canvas1 st
    else if el.name = "layer" then
      match parseLayer el canvas with
      | .error msg => .error msg
      | .ok _ => parseCanvasKids parseCanvasDefs rest inline canvas st
    else .error ("Unexpected element in <canvas>: <" ++ el.name ++ ">")

/-- `parseCanvasDefs(pulley, canvas)` (lines 168-177), parameterized by
the recursive canvas parser: each child is a nested (non-inline) canvas
or a value node. -/
def parseCanvasDefs
    (parseCanvas : Element → Option CanvasV → Bool → St → Except String (RegObj × St)) :
    List Child → CanvasV → St → Except String (CanvasV × St)
  | [], canvas, st => .ok (canvas, st)
  | Child.text _ :: _, _, _ => .error "Expected opentag"
  | Child.elem el :: rest, canvas, st =>
    if el.name = "canvas" then
      match parseCanvas el (some canvas) false st with
      | .error msg => .error msg
      | .ok (_, st1) => parseCanvasDefs parseCanvas rest canvas st1
    else
      match parseValueNode el canvas st with
      | .error msg => .error msg
      | .ok (_, canvas1, st1) => parseCanvasDefs parseCanvas rest canvas1 st1

/-- The creation path of `parseCanvas` (lines 44-165): allocation,
registration, scalar attributes, then the child loop.
Lines 44-51 read: `let canvas;` then, when `inline || !parent`,
`canvas = Canvas.create(); canvas.parent = parent;` and otherwise
`canvas = Canvas.childCanvas(canvas, attrs.id);` - the argument of
`childCanvas` is the still-undefined `canvas` variable itself, not
`parent`.  The source registers the canvas object reference before
populating it; the model registers the allocation-time snapshot, so
later field updates are not reflected in the registry entry (no claim
depends on canvas aliasing). -/
def parseCanvasNew
    (parseCanvas : Element → Option CanvasV → Bool → St → Except String (RegObj × St))
    (e : Element) (parent : Option CanvasV) (inline : Bool) (st : St) :
    Except String (RegObj × St) :=
  let canvas0 : CanvasV :=
    if inline || parent.isNone then Canvas.create.withParent parent
    else Canvas.childCanvas none (e.attr "id")
  -- Guid.set(canvas.guid = attrs['guid'] || Guid.generate(), canvas)
  let guid := if jsTruthyStr (e.attr "guid") then (e.attr "guid").getD ""
    else Guid.generate st.guidCtr
  let st1 := if jsTruthyStr (e.attr "guid") then st
    else { st with guidCtr := st.guidCtr + 1 }
  let canvas1 := canvas0.withData (fun d => { d with guid := guid })
  let st2 := Guid.set guid (.cnv canvas1) st1
  match parseCanvasAttrs e inline canvas1 with
  | .error msg => .error msg
  | .ok canvas2 =>
    match parseCanvasKids (parseCanvasDefs parseCanvas) e.children inline canvas2 st2 with
    | .error msg => .error msg
    | .ok (canvas3, st3) => .ok (.cnv canvas3, st3)

/-- `parseCanvas` with an explicit recursion-depth bound (nested
canvases recurse through defs children; the wrapper below supplies
ample fuel, so the fuel-out branch is unreachable).  A truthy `guid`
attribute already in the registry short-circuits to the registered
object (canvas reference ids are not scope-transformed). -/
def parseCanvasF : Nat → Element → Option CanvasV → Bool → St → Except String (RegObj × St)
  | 0, _, _, _, _ => .error "recursion depth exceeded"
  | fuel + 1, e, parent, inline, st =>
    if e.name ≠ "canvas" then .error "Expected <canvas>"
    else if jsTruthyStr (e.attr "guid") then
      match Guid.lookup ((e.attr "guid").getD "") st with
      | some o => .ok (o, st)   -- pulley.skipTag(); return Guid.get(...)
      | none => parseCanvasNew (parseCanvasF fuel) e parent inline st
    else parseCanvasNew (parseCanvasF fuel) e parent inline st

/-- `parseCanvas(pulley, parent, inline)` (lines 36-166).  `elemFuel e`
strictly exceeds the nesting depth of `e`, so the fuel never runs
out. -/
def parseCanvas (e : Element) (parent : Option CanvasV) (inline : Bool) (st : St) :
    Except String (RegObj × St) :=
  parseCanvasF (elemFuel e) e parent inline st

/-- `loadSif(file)`: configures the reader and parses the root canvas;
the element tree stands for the tokenized document, `st` for the
process-wide registry state. -/
def loadSif (e : Element) (st : St) : Except String (RegObj × St) :=
  parseCanvas e none false st


/-- The reference id under which `parseValueNode` resolves and registers
a node: the scope-transformed attribute when one is (truthily) present,
else the freshly generated id. -/
def effectiveGuid (e : Element) (c : CanvasV) (st : St) : String :=
  if jsTruthyStr (e.attr "guid") then
    Guid.xor ((e.attr "guid").getD "") (Canvas.getRoot c).data.guid
  else Guid.generate st.guidCtr

-- concrete fixtures used by the witness theorems

def w1e : Element := .mk "real" [("value", "2"), ("guid", "g1")] []

def w1c : CanvasV := .mk { guid := "R" } none

def w1node : Node :=
  { nid := 0, value := Value.mk "real" (some (.real (jsParseFloat "2"))) (some false) (some .undef) }

def w1o : RegObj := .vnode w1node

def w1st1 : St := { registry := [("51", w1o)], guidCtr := 0, nodeCtr := 1 }

def w5parent : CanvasV := .mk { guid := "R" } none

def w5child : CanvasV := .mk { guid := "generated-0", id := some "child" } none

def w5st : St :=
  { registry := [("generated-0", .cnv (.mk { guid := "generated-0" } none))], guidCtr := 1 }

def w9canvas : CanvasV :=
  .mk { guid := "generated-0", fps := jsParseFloat "24",
        timeStart := some (parseTime "24f".toList (jsParseFloat "24")) } none

def w9st : St :=
  { registry := [("generated-0", .cnv (.mk { guid := "generated-0" } none))], guidCtr := 1 }

-- ===================== DEF_INSERT_MARKER =====================

-- ===================== Supporting lemmas =====================

theorem aux_isDig_toNat {c : Char} (h : isDig c = true) : 48 ≤ c.toNat ∧ c.toNat ≤ 57 := by
  simpa [isDig] using h

theorem aux_isDig_ne {c x : Char} (h : isDig c = true) (hx : x.toNat < 48 ∨ 57 < x.toNat) :
    c ≠ x := by
  intro he
  have := aux_isDig_toNat h
  subst he
  omega

theorem aux_takeWhile_append (p : Char → Bool) {a : List Char} (x : Char) (r : List Char)
    (ha : ∀ c ∈ a, p c = true) (hx : p x = false) :
    (a ++ x :: r).takeWhile p = a := by
  induction a with
  | nil => simp [List.takeWhile_cons, hx]
  | cons c t ih =>
    have hc := ha c (by simp)
    simp only [List.cons_append, List.takeWhile_cons, hc]
    simp [ih (fun d hd => ha d (by simp [hd]))]

theorem aux_dropWhile_append (p : Char → Bool) {a : List Char} (x : Char) (r : List Char)
    (ha : ∀ c ∈ a, p c = true) (hx : p x = false) :
    (a ++ x :: r).dropWhile p = x :: r := by
  induction a with
  | nil => simp [List.dropWhile_cons, hx]
  | cons c t ih =>
    have hc := ha c (by simp)
    simp only [List.cons_append, List.dropWhile_cons, hc]
    simp [ih (fun d hd => ha d (by simp [hd]))]

theorem aux_takeWhile_all (p : Char → Bool) {l : List Char}
    (h : ∀ c ∈ l, p c = true) : l.takeWhile p = l := by
  induction l with
  | nil => rfl
  | cons c t ih =>
    have hc := h c (by simp)
    simp [List.takeWhile_cons, hc, ih (fun d hd => h d (by simp [hd]))]

theorem aux_dropWhile_all (p : Char → Bool) {l : List Char}
    (h : ∀ c ∈ l, p c = true) : l.dropWhile p = [] := by
  induction l with
  | nil => rfl
  | cons c t ih =>
    have hc := h c (by simp)
    simp [List.dropWhile_cons, hc, ih (fun d hd => h d (by simp [hd]))]

theorem aux_dropWhile_id (p : Char → Bool) {l : List Char}
    (h : ∀ c ∈ l, p c = false) : l.dropWhile p = l := by
  cases l with
  | nil => rfl
  | cons c t => simp [List.dropWhile_cons, h c (by simp)]

theorem aux_numMatch_digits {a r : List Char} (ha : ∀ c ∈ a, isDig c = true) :
    numMatch (a ++ ':' :: r) = a := by
  have hne : (a ++ ':' :: r).head? ≠ some '-' := by
    cases a with
    | nil => simp
    | cons c t =>
      have hc := ha c (by simp)
      simp only [List.cons_append, List.head?_cons, ne_eq, Option.some.injEq]
      exact aux_isDig_ne hc (by decide)
  have hco : isDig ':' = false := by decide
  simp only [numMatch, if_neg hne]
  rw [aux_takeWhile_append _ ':' r ha hco, aux_dropWhile_append _ ':' r ha hco]
  simp [List.takeWhile_cons, hco]

theorem aux_getD_append_len (a : List Char) (x : Char) (r : List Char) (d : Char) :
    (a ++ x :: r).getD a.length d = x := by
  simp [List.getD, List.getElem?_append_right (Nat.le_refl a.length)]

theorem aux_jsSplit_ne_nil (l : List Char) (sep : Char) : jsSplit l sep ≠ [] := by
  cases l with
  | nil => simp [jsSplit]
  | cons c r =>
    simp only [jsSplit]
    split
    · simp
    · split <;> simp

theorem aux_jsSplit_no_sep {l : List Char} {sep : Char} (h : ∀ c ∈ l, c ≠ sep) :
    jsSplit l sep = [l] := by
  induction l with
  | nil => rfl
  | cons c r ih =>
    have hc : ¬ c = sep := h c (by simp)
    simp only [jsSplit, if_neg hc, ih (fun d hd => h d (by simp [hd]))]

theorem aux_jsSplit_append {a : List Char} {sep : Char} (r : List Char)
    (h : ∀ c ∈ a, c ≠ sep) :
    jsSplit (a ++ sep :: r) sep = a :: jsSplit r sep := by
  induction a with
  | nil => simp [jsSplit]
  | cons c t ih =>
    have hc : ¬ c = sep := h c (by simp)
    have iht := ih (fun d hd => h d (by simp [hd]))
    simp only [List.cons_append, jsSplit, if_neg hc, List.append_eq, iht]

theorem aux_jsIndexOf_append {c1 : List Char} {x : Char} (d : List Char)
    (h : ∀ c ∈ c1, c ≠ x) : jsIndexOf (c1 ++ x :: d) x = some c1.length := by
  induction c1 with
  | nil => simp [jsIndexOf]
  | cons c t ih =>
    have hc : ¬ c = x := h c (by simp)
    simp [jsIndexOf, if_neg hc, ih (fun e he => h e (by simp [he]))]

theorem aux_isDig_not_ws {c : Char} (h : isDig c = true) : isJsWs c = false := by
  have hb := aux_isDig_toNat h
  simp only [isJsWs, decide_eq_false_iff_not]
  rintro (rfl | rfl | rfl | rfl | rfl | rfl) <;> simp [isDig] at h

theorem aux_parseDecFull_digits {l : List Char} (hne : l ≠ [])
    (h : ∀ c ∈ l, isDig c = true) :
    parseDecFull l = some ((decDigitsVal l : Nat) : Rat) := by
  simp only [parseDecFull, aux_takeWhile_all isDig h, aux_dropWhile_all isDig h]
  simp [List.isEmpty_iff, hne]

theorem aux_jsStringToNumber_digits {l : List Char} (h : ∀ c ∈ l, isDig c = true) :
    jsStringToNumber l = some ((decDigitsVal l : Nat) : Rat) := by
  have hws : ∀ c ∈ l, isJsWs c = false := fun c hc => aux_isDig_not_ws (h c hc)
  have htrim1 : l.dropWhile isJsWs = l := aux_dropWhile_id isJsWs hws
  have htrim2 : l.reverse.dropWhile isJsWs = l.reverse :=
    aux_dropWhile_id isJsWs (by intro c hc; exact hws c (List.mem_reverse.mp hc))
  cases l with
  | nil => simp [jsStringToNumber, decDigitsVal]
  | cons c0 t =>
    have hc0 := h c0 (by simp)
    simp only [jsStringToNumber, htrim1, htrim2, List.reverse_reverse]
    have hne1 : (c0 :: t).head? ≠ some '-' := by
      simp only [List.head?_cons, ne_eq, Option.some.injEq]
      exact aux_isDig_ne hc0 (by decide)
    have hne2 : (c0 :: t).head? ≠ some '+' := by
      simp only [List.head?_cons, ne_eq, Option.some.injEq]
      exact aux_isDig_ne hc0 (by decide)
    rw [if_neg (by simp)]
    rw [if_neg (by rintro (h1 | h2); exact hne1 h1; exact hne2 h2)]
    have hmag : (match c0 :: t with
        | '0' :: x :: r =>
          if x = 'x' ∨ x = 'X' then (radixVal 16 r).map (fun n => (n : Rat))
          else if x = 'o' ∨ x = 'O' then (radixVal 8 r).map (fun n => (n : Rat))
          else if x = 'b' ∨ x = 'B' then (radixVal 2 r).map (fun n => (n : Rat))
          else parseDecFull (c0 :: t)
        | _ =>
          if c0 :: t = "Infinity".toList then none
          else parseDecFull (c0 :: t)) = parseDecFull (c0 :: t) := by
      cases t with
      | nil =>
        have : ¬ ([c0] = "Infinity".toList) := by
          intro he
          have : c0 = 'I' := by simpa using congrArg (fun l => l.headD ' ') he
          have := congrArg List.length he
          simp at this
        split
        · rename_i x r heq
          simp at heq
        · rw [if_neg this]
      | cons c1 t2 =>
        have hc1 := h c1 (by simp)
        split
        · rename_i x r heq
          obtain ⟨he0, he1, he2⟩ : c0 = '0' ∧ c1 = x ∧ t2 = r := by
            injection heq with j1 j2
            injection j2 with j3 j4
            exact ⟨j1, j3, j4⟩
          subst he1
          rw [if_neg, if_neg, if_neg]
          · rintro (rfl | rfl) <;> simp [isDig] at hc1
          · rintro (rfl | rfl) <;> simp [isDig] at hc1
          · rintro (rfl | rfl) <;> simp [isDig] at hc1
        · rw [if_neg]
          intro he
          have : c0 = 'I' := by simpa using congrArg (fun l => l.headD ' ') he
          subst this
          simp [isDig] at hc0
    rw [hmag, aux_parseDecFull_digits (by simp) h]
    have hneg : ¬ c0 = '-' := aux_isDig_ne hc0 (by decide)
    simp [List.head?_cons, hneg]

theorem aux_jsNumOrZero_digits {l : List Char} (h : ∀ c ∈ l, isDig c = true) :
    jsNumOrZero l = ((decDigitsVal l : Nat) : Rat) := by
  simp [jsNumOrZero, aux_jsStringToNumber_digits h]

theorem aux_parseTimeLoop_isSome (stamp : List Char) (fps : Rat) :
    ∀ fuel pos value, stamp.length - pos < fuel →
      (parseTimeLoop fuel stamp fps pos value).isSome = true := by
  intro fuel
  induction fuel with
  | zero => intro pos value h; omega
  | succ n ih =>
    intro pos value h
    rw [parseTimeLoop]
    by_cases hpos : pos < stamp.length
    · rw [if_pos hpos]
      by_cases hend : stamp.length ≤ pos + (numMatch (stamp.drop pos)).length
      · simp only [hend, if_pos, Option.isSome_some]
      · simp only [hend, if_neg, if_false]
        have hrec : ∀ v, (parseTimeLoop n stamp fps
            (pos + (numMatch (stamp.drop pos)).length + 1) v).isSome = true := by
          intro v
          apply ih
          omega
        split
        · exact hrec _
        · split
          · exact hrec _
          · split
            · exact hrec _
            · split
              · exact hrec _
              · split
                · split
                  · simp
                  · exact hrec _
                · exact hrec _
    · rw [if_neg hpos]
      simp

theorem aux_toLower_small {c : Char} (h : c.toNat < 65) : c.toLower = c := by
  simp only [Char.toLower]
  rw [if_neg]
  omega

theorem aux_jsToLower_fix {l : List Char} (h : ∀ c ∈ l, c.toNat < 65) :
    jsToLower l = l := by
  unfold jsToLower
  induction l with
  | nil => rfl
  | cons c t ih =>
    simp only [List.map_cons, aux_toLower_small (h c (by simp)),
      ih (fun d hd => h d (by simp [hd])), List.cons.injEq, and_self]

theorem aux_colon_eval
    (a b c d : List Char) (fps : Rat)
    (ha : ∀ ch ∈ a, isDig ch = true) (hb : ∀ ch ∈ b, isDig ch = true)
    (hc : ∀ ch ∈ c, isDig ch = true) (hd : ∀ ch ∈ d, isDig ch = true)
    (hfps : fps ≠ 0) :
    parseTimeLoop ((a ++ ':' :: (b ++ ':' :: (c ++ '.' :: d))).length + 1)
        (a ++ ':' :: (b ++ ':' :: (c ++ '.' :: d))) fps 0 0 =
      some (((decDigitsVal a : Nat) : Rat) * 3600 + ((decDigitsVal b : Nat) : Rat) * 60 +
            ((decDigitsVal c : Nat) : Rat) + ((decDigitsVal d : Nat) : Rat) / fps) := by
  have hlen : (a ++ ':' :: (b ++ ':' :: (c ++ '.' :: d))).length
      = a.length + b.length + c.length + d.length + 3 := by
    simp [List.length_append]
    omega
  have hnca : ∀ ch ∈ a, ch ≠ ':' := fun ch h1 => aux_isDig_ne (ha ch h1) (by decide)
  have hncb : ∀ ch ∈ b, ch ≠ ':' := fun ch h1 => aux_isDig_ne (hb ch h1) (by decide)
  have hnccd : ∀ ch ∈ c ++ '.' :: d, ch ≠ ':' := by
    intro ch h1
    simp only [List.mem_append, List.mem_cons] at h1
    rcases h1 with h1 | rfl | h1
    · exact aux_isDig_ne (hc ch h1) (by decide)
    · decide
    · exact aux_isDig_ne (hd ch h1) (by decide)
  have hdotc : ∀ ch ∈ c, ch ≠ '.' := fun ch h1 => aux_isDig_ne (hc ch h1) (by decide)
  have hsplit : jsSplit (a ++ ':' :: (b ++ ':' :: (c ++ '.' :: d))) ':'
      = [a, b, c ++ '.' :: d] := by
    rw [aux_jsSplit_append _ hnca, aux_jsSplit_append _ hncb, aux_jsSplit_no_sep hnccd]
  have hidx : jsIndexOf (c ++ '.' :: d) '.' = some c.length :=
    aux_jsIndexOf_append d hdotc
  have hdrop : (c ++ '.' :: d).drop (c.length + 1) = d := by
    rw [show c ++ '.' :: d = (c ++ ['.']) ++ d by simp]
    exact List.drop_left' (by simp)
  have htake : (c ++ '.' :: d).take c.length = c := List.take_left' rfl
  rw [parseTimeLoop]
  rw [if_pos (by omega)]
  simp only [List.drop_zero, aux_numMatch_digits ha, Nat.zero_add]
  rw [if_neg (by omega)]
  rw [aux_getD_append_len a ':' _ ' ']
  rw [if_neg (by decide), if_neg (by decide), if_neg (by decide), if_neg (by decide),
      if_pos (by decide)]
  simp only [hsplit]
  rw [if_pos (by simp)]
  simp only [List.getD, List.get?_cons_zero, List.get?_cons_succ, Option.getD_some,
    List.getElem?_cons_zero, List.getElem?_cons_succ]
  simp only [hidx, hdrop, htake]
  rw [show (([a, b, c ++ '.' :: d] ++ [d]).set 2 c) = [a, b, c, d] from rfl]
  rw [if_pos (by simp), if_pos hfps]
  simp only [List.getD, List.get?_cons_zero, List.get?_cons_succ, Option.getD_some,
    List.getElem?_cons_zero, List.getElem?_cons_succ]
  simp only [aux_jsNumOrZero_digits ha, aux_jsNumOrZero_digits hb,
    aux_jsNumOrZero_digits hc, aux_jsNumOrZero_digits hd]

theorem aux_lookup_set (g : String) (o : RegObj) (st : St) :
    Guid.lookup g (Guid.set g o st) = some o := by
  simp [Guid.lookup, Guid.set, List.find?]

theorem aux_getRoot_addValueNode (c : CanvasV) (n : Node) (i : String) :
    (Canvas.getRoot (Canvas.addValueNode c n i)).data.guid
      = (Canvas.getRoot c).data.guid := by
  cases c with
  | mk d p =>
    cases p <;>
      simp [Canvas.addValueNode, CanvasV.withData, Canvas.getRoot, CanvasV.data]

theorem aux_pvnb_registers {e : Element} {c : CanvasV} {st : St} {g : String}
    {o : RegObj} {c2 : CanvasV} {st2 : St}
    (h : parseValueNodeBody e c st g = .ok (o, c2, st2)) :
    Guid.lookup g st2 = some o := by
  unfold parseValueNodeBody at h
  split at h
  · split at h
    · exact absurd h (by simp)
    · split at h <;>
        · simp only [Except.ok.injEq, Prod.mk.injEq] at h
          obtain ⟨ho, hc, hst⟩ := h
          subst ho; subst hst
          exact aux_lookup_set _ _ _
    · exact absurd h (by simp)
  · exact absurd h (by simp)

theorem aux_pvnb_canvas_guid {e : Element} {c : CanvasV} {st : St} {g : String}
    {o : RegObj} {c2 : CanvasV} {st2 : St}
    (h : parseValueNodeBody e c st g = .ok (o, c2, st2)) :
    (Canvas.getRoot c2).data.guid = (Canvas.getRoot c).data.guid := by
  unfold parseValueNodeBody at h
  split at h
  · split at h
    · exact absurd h (by simp)
    · split at h
      · simp only [Except.ok.injEq, Prod.mk.injEq] at h
        obtain ⟨ho, hc, hst⟩ := h
        subst hc
        exact aux_getRoot_addValueNode _ _ _
      · simp only [Except.ok.injEq, Prod.mk.injEq] at h
        obtain ⟨ho, hc, hst⟩ := h
        subst hc
        rfl
    · exact absurd h (by simp)
  · exact absurd h (by simp)

theorem aux_pvn_registers {e : Element} {c : CanvasV} {st : St}
    {o : RegObj} {c2 : CanvasV} {st2 : St}
    (h : parseValueNode e c st = .ok (o, c2, st2)) :
    Guid.lookup (effectiveGuid e c st) st2 = some o := by
  unfold parseValueNode at h
  unfold effectiveGuid
  by_cases ht : jsTruthyStr (e.attr "guid") = true
  · rw [if_pos ht] at h
    rw [if_pos ht]
    cases hl : Guid.lookup (Guid.xor ((e.attr "guid").getD "")
        (Canvas.getRoot c).data.guid) st with
    | some o1 =>
      simp only [hl, Except.ok.injEq, Prod.mk.injEq] at h
      obtain ⟨ho, hc, hst⟩ := h
      subst ho; subst hst
      exact hl
    | none =>
      simp only [hl] at h
      exact aux_pvnb_registers h
  · rw [if_neg ht] at h
    rw [if_neg ht]
    exact aux_pvnb_registers h

theorem aux_pvn_canvas_guid {e : Element} {c : CanvasV} {st : St}
    {o : RegObj} {c2 : CanvasV} {st2 : St}
    (h : parseValueNode e c st = .ok (o, c2, st2)) :
    (Canvas.getRoot c2).data.guid = (Canvas.getRoot c).data.guid := by
  unfold parseValueNode at h
  by_cases ht : jsTruthyStr (e.attr "guid") = true
  · rw [if_pos ht] at h
    cases hl : Guid.lookup (Guid.xor ((e.attr "guid").getD "")
        (Canvas.getRoot c).data.guid) st with
    | some o1 =>
      simp only [hl, Except.ok.injEq, Prod.mk.injEq] at h
      obtain ⟨ho, hc, hst⟩ := h
      subst hc
      rfl
    | none =>
      simp only [hl] at h
      exact aux_pvnb_canvas_guid h
  · rw [if_neg ht] at h
    exact aux_pvnb_canvas_guid h

theorem aux_early_some_list {pv : Element → Except String (Option Value)}
    {e : Element} {v : Value}
    (h : parseValueBody pv e = .ok (.early (some v))) : e.name = "list" := by
  by_cases hl : e.name = "list"
  · exact hl
  exfalso
  unfold parseValueBody at h
  by_cases h1 : e.name = "real"
  · rw [if_pos h1] at h
    cases hx : parseValueAttribute e <;> simp [hx] at h
  rw [if_neg h1] at h
  by_cases h2 : e.name = "time"
  · rw [if_pos h2] at h
    cases hx : parseValueAttribute e <;> simp [hx] at h
  rw [if_neg h2] at h
  by_cases h3 : e.name = "integer"
  · rw [if_pos h3] at h
    cases hx : parseValueAttribute e <;> simp [hx] at h
  rw [if_neg h3] at h
  by_cases h4 : e.name = "string"
  · rw [if_pos h4] at h
    cases hx : readTextOf e.children <;> simp [hx] at h
  rw [if_neg h4] at h
  by_cases h5 : e.name = "vector"
  · rw [if_pos h5] at h
    cases hx : vectorKids e.children Vector.create0 <;> simp [hx] at h
  rw [if_neg h5] at h
  by_cases h6 : e.name = "color"
  · rw [if_pos h6] at h
    cases hx : colorKids e.children (Color.create1 (some 0)) <;> simp [hx] at h
  rw [if_neg h6] at h
  by_cases h7 : e.name = "segment"
  · rw [if_pos h7] at h
    cases hx : segmentKids pv e.children Segment.create <;> simp [hx] at h
  rw [if_neg h7] at h
  by_cases h8 : e.name = "gradient"
  · rw [if_pos h8] at h
    cases hx : gradientKids pv e.children Gradient.create <;> simp [hx] at h
  rw [if_neg h8] at h
  by_cases h9 : e.name = "bool"
  · rw [if_pos h9] at h
    cases hx : parseValueAttribute e
    · simp [hx] at h
    · simp only [hx] at h
      split at h <;> try simp_all
      all_goals (split at h <;> simp_all)
  rw [if_neg h9] at h
  by_cases h10 : e.name = "angle" ∨ e.name = "degrees" ∨ e.name = "radians" ∨ e.name = "rotations"
  · rw [if_pos h10] at h
    cases hx : parseValueAttribute e <;> simp [hx] at h
  rw [if_neg h10] at h
  by_cases h11 : e.name = "transformation"
  · rw [if_pos h11] at h
    cases hx : transformationKids pv e.children Transformation.create <;> simp [hx] at h
  rw [if_neg h11] at h
  rw [if_neg hl] at h
  by_cases h13 : e.name = "bline_point" ∨ e.name = "guid" ∨ e.name = "width_point" ∨ e.name = "dash_item" ∨ e.name = "canvas"
  · rw [if_pos h13] at h
    simp at h
  rw [if_neg h13] at h
  simp at h

theorem aux_elemFuel_succ (e : Element) : ∃ k, elemFuel e = k + 1 := by
  cases e with
  | mk n a c => exact ⟨childListFuel c, rfl⟩

theorem aux_parseValue_carries {e : Element} {v : Value}
    (h : parseValue e = .ok (some v)) (hne : e.name ≠ "list") :
    ∃ st ip, readStatic e = .ok st ∧ readInterpolation e = .ok ip ∧
      v.static = some st ∧ v.interpolation = some ip := by
  obtain ⟨k, hk⟩ := aux_elemFuel_succ e
  unfold parseValue at h
  rw [hk] at h
  rw [parseValueF] at h
  cases hb : parseValueBody (parseValueF k) e with
  | error m => rw [hb] at h; exact absurd h (by simp)
  | ok b =>
    cases b with
    | early r =>
      rw [hb] at h
      simp only [Except.ok.injEq] at h
      subst h
      exact absurd (aux_early_some_list hb) hne
    | thru d =>
      rw [hb] at h
      cases hst : readStatic e with
      | error m => rw [hst] at h; exact absurd h (by simp)
      | ok stv =>
        rw [hst] at h
        cases hip : readInterpolation e with
        | error m => rw [hip] at h; exact absurd h (by simp)
        | ok ipv =>
          rw [hip] at h
          simp only [Except.ok.injEq, Option.some.injEq] at h
          subst h
          exact ⟨stv, ipv, rfl, rfl, rfl, rfl⟩

-- ===================== Claim theorems =====================

/-- Claim C2: parseValue returns a non-value (undefined, modelled ok
none) for the placeholder tags bline_point, guid, width_point,
dash_item and canvas, without raising an error - but for an
unrecognized tag name the switch default falls through and parseValue
returns a Value object (type tag kept, data unassigned, modifiers
read), contradicting the claimed null contract.  The last equation
evaluates the code at the failing input. -/
theorem parseValue_placeholder_and_unknown :
    parseValue (Element.mk "bline_point" [] []) = .ok none ∧
    parseValue (Element.mk "guid" [] []) = .ok none ∧
    parseValue (Element.mk "width_point" [] []) = .ok none ∧
    parseValue (Element.mk "dash_item" [] []) = .ok none ∧
    parseValue (Element.mk "canvas" [] []) = .ok none ∧
    parseValue (Element.mk "bogus" [] [])
      = .ok (some (Value.mk "bogus" none (some false) (some .undef))) :=
  ⟨rfl, rfl, rfl, rfl, rfl, rfl⟩

/-- Claim C3 counterexample: a list element with static="2" (claimed to
be a fatal error) and interpolation="junk" parses successfully, and the
returned Value carries neither modifier - the list case returns before
the static/interpolation reads. -/
theorem parseValue_list_modifiers_cex :
    parseValue (Element.mk "list" [("static", "2"), ("interpolation", "junk")] [])
      = .ok (some (Value.mk "list" (some (.list [])) none none)) := rfl

/-- Claim C4: a well-formed segment element whose child parses as a
vector does not produce a segment Value; the source assigns to the
unbound variable col (block-scoped to the color case), so parsing
throws a ReferenceError. -/
theorem parseValue_segment_col_reference_error :
    parseValue (Element.mk "segment" []
      [Child.elem (Element.mk "p1" []
        [Child.elem (Element.mk "vector" []
          [Child.elem (Element.mk "x" [] [Child.text "1"]),
           Child.elem (Element.mk "y" [] [Child.text "2"])])])])
      = .error "ReferenceError: col is not defined" := rfl

/-- Claim C5: parsing a canvas element with a non-null parent and
inline false does not link the child to that parent: the source passes
its own still-undefined local variable to Canvas.childCanvas, so the
resulting canvas has no parent link. -/
theorem parseCanvas_child_parent_dropped :
    parseCanvas (Element.mk "canvas" [("id", "child")] []) (some w5parent) false {}
      = .ok (.cnv w5child, w5st) ∧ w5child.parent = none :=
  ⟨rfl, rfl⟩

/-- Claim C6: for every input string and every fps value the scanning
loop of parseTime terminates within length-plus-one iterations (the
fuel parseTime runs it with), so parseTime always returns a numeric
value; no branch of the loop raises an error, malformed input included. -/
theorem parseTime_total_and_lenient :
    ∀ (stamp : List Char) (fpsArg : Option Rat),
      (parseTimeLoop ((jsToLower stamp).length + 1) (jsToLower stamp)
        (fpsArg.getD 0) 0 0).isSome = true := by
  intro stamp fpsArg
  apply aux_parseTimeLoop_isSome
  omega

/-- Claim C1: a value-node element whose (truthy) reference id,
scope-transformed with the root canvas id of its owning canvas, is
already registered is not re-parsed: the registered object is returned
and the registry, counters and canvas are left untouched, so two
definitions sharing one reference id resolve to the identical node;
and every successful parseValueNode leaves the returned node
registered under its transformed (or freshly generated) reference
id. -/
theorem parseValueNode_shared_guid :
    (∀ (e : Element) (c : CanvasV) (st : St) (o : RegObj) (c2 : CanvasV) (st2 : St),
        parseValueNode e c st = .ok (o, c2, st2) →
        Guid.lookup (effectiveGuid e c st) st2 = some o) ∧
    (∀ (e1 e2 : Element) (g : String) (c : CanvasV) (st : St) (o1 : RegObj)
        (c1 : CanvasV) (st1 : St) (o2 : RegObj) (c2 : CanvasV) (st2 : St),
        jsTruthyStr (e1.attr "guid") = true →
        e1.attr "guid" = some g → e2.attr "guid" = some g →
        parseValueNode e1 c st = .ok (o1, c1, st1) →
        parseValueNode e2 c1 st1 = .ok (o2, c2, st2) →
        o2 = o1 ∧ c2 = c1 ∧ st2 = st1) := by
  constructor
  · intro e c st o c2 st2 h
    exact aux_pvn_registers h
  · intro e1 e2 g c st o1 c1 st1 o2 c2 st2 ht h1 h2 hp1 hp2
    have hreg := aux_pvn_registers hp1
    have hroot := aux_pvn_canvas_guid hp1
    have ht2 : jsTruthyStr (e2.attr "guid") = true := by rw [h2]; rw [h1] at ht; exact ht
    unfold parseValueNode at hp2
    have hg : Guid.xor ((e2.attr "guid").getD "") (Canvas.getRoot c1).data.guid
        = effectiveGuid e1 c st := by
      unfold effectiveGuid
      rw [if_pos ht, h1, h2, hroot]
    simp only [ht2, if_true, hg, hreg, Except.ok.injEq, Prod.mk.injEq] at hp2
    obtain ⟨ho, hc, hst⟩ := hp2
    exact ⟨ho.symm, hc.symm, hst.symm⟩

/-- Claim C1 witness: both parses of the same guid-carrying real
literal return the identical node and the second leaves the state
unchanged. -/
theorem parseValueNode_shared_guid_witness :
    parseValueNode w1e w1c {} = .ok (w1o, w1c, w1st1) ∧
    parseValueNode w1e w1c w1st1 = .ok (w1o, w1c, w1st1) ∧
    (w1o = w1o ∧ w1c = w1c ∧ w1st1 = w1st1) :=
  ⟨rfl, rfl,
   parseValueNode_shared_guid.2 w1e w1e "g1" w1c {} w1o w1c w1st1 w1o w1c w1st1
     rfl rfl rfl rfl rfl⟩

/-- Claim C3 (amended): every literal variant that parseValue parses
successfully, except the list variant, reads the static attribute
(absent, 0 or false give false; 1 or true give true; anything else is
a fatal error) and the interpolation attribute (absent gives
undefined; halt, constant, linear, manual, auto (to TCB) and clamped
map to their modes; anything else is a fatal error), and the returned
Value carries both results.  The list variant returns before these
reads: its Value carries neither and the attributes are not validated
(see the counterexample). -/
theorem parseValue_modifiers_except_list :
    (∀ (e : Element) (v : Value), parseValue e = .ok (some v) → e.name ≠ "list" →
        ∃ st ip, readStatic e = .ok st ∧ readInterpolation e = .ok ip ∧
          v.static = some st ∧ v.interpolation = some ip) ∧
    (∀ e : Element, (e.attr "static" = none ∨ e.attr "static" = some "0"
        ∨ e.attr "static" = some "false") → readStatic e = .ok false) ∧
    (∀ e : Element, (e.attr "static" = some "1" ∨ e.attr "static" = some "true") →
        readStatic e = .ok true) ∧
    (∀ (e : Element) (s : String), e.attr "static" = some s →
        s ≠ "0" → s ≠ "false" → s ≠ "1" → s ≠ "true" →
        readStatic e = .error ("Invalid value for static: " ++ s)) ∧
    (∀ e : Element, e.attr "interpolation" = none → readInterpolation e = .ok .undef) ∧
    (readInterpolation (Element.mk "v" [("interpolation", "halt")] []) = .ok .halt ∧
     readInterpolation (Element.mk "v" [("interpolation", "constant")] []) = .ok .const ∧
     readInterpolation (Element.mk "v" [("interpolation", "linear")] []) = .ok .linear ∧
     readInterpolation (Element.mk "v" [("interpolation", "manual")] []) = .ok .manual ∧
     readInterpolation (Element.mk "v" [("interpolation", "auto")] []) = .ok .tcb ∧
     readInterpolation (Element.mk "v" [("interpolation", "clamped")] []) = .ok .clamped) ∧
    (∀ (e : Element) (s : String), e.attr "interpolation" = some s →
        s ≠ "halt" → s ≠ "constant" → s ≠ "linear" → s ≠ "manual" → s ≠ "auto" →
        s ≠ "clamped" →
        readInterpolation e = .error ("Invalid value for interpolation: " ++ s)) := by
  refine ⟨?_, ?_, ?_, ?_, ?_, ⟨rfl, rfl, rfl, rfl, rfl, rfl⟩, ?_⟩
  · intro e v h hne
    exact aux_parseValue_carries h hne
  · intro e h
    unfold readStatic
    rcases h with h | h | h <;> rw [h] <;> rfl
  · intro e h
    unfold readStatic
    rcases h with h | h <;> rw [h] <;> rfl
  · intro e s h n0 nf n1 nt
    unfold readStatic
    rw [h]
    split <;> simp_all
  · intro e h
    unfold readInterpolation
    rw [h]
  · intro e s h nh nc nl nm na ncl
    unfold readInterpolation
    rw [h]
    split <;> simp_all

/-- Claim C3 witness: the carried-modifier clause applied to a concrete
real literal with static 1 and interpolation auto. -/
theorem parseValue_modifiers_except_list_witness :
    parseValue (Element.mk "real" [("value", "2"), ("static", "1"), ("interpolation", "auto")] [])
        = .ok (some (Value.mk "real" (some (.real (jsParseFloat "2"))) (some true) (some .tcb))) ∧
    (∃ st ip,
        readStatic (Element.mk "real"
          [("value", "2"), ("static", "1"), ("interpolation", "auto")] []) = .ok st ∧
        readInterpolation (Element.mk "real"
          [("value", "2"), ("static", "1"), ("interpolation", "auto")] []) = .ok ip ∧
        (Value.mk "real" (some (.real (jsParseFloat "2"))) (some true) (some .tcb)).static
          = some st ∧
        (Value.mk "real" (some (.real (jsParseFloat "2"))) (some true) (some .tcb)).interpolation
          = some ip) :=
  ⟨rfl, parseValue_modifiers_except_list.1 _ _ rfl (by decide)⟩

set_option maxRecDepth 8000 in
/-- Claim C7 counterexample: with four colon fields (at least three, as
the claim reads) the fractional suffix of the seconds field does not
contribute - the already-present 4th field supplies the frame count -
so the value the claim predicts, 0*3600 + 0*60 + 1 + 500/24, differs
from the computed 1. -/
theorem parseTime_four_fields_cex :
    parseTime "0:0:1.500:0".toList (some 24) = 1 ∧
    (1 : Rat) ≠ 0 * 3600 + 0 * 60 + 1 + 500 / 24 := by
  constructor
  · with_unfolding_all decide
  · norm_num

/-- Claim C7 (amended): with exactly three colon fields of decimal
digits and a nonzero fps, a fractional suffix on the seconds field is
appended as an implicit fourth (frame) field: its digits are read as a
literal frame count and divided by fps, not as a sub-second fraction
(when a fourth colon field is already present it wins and the suffix
is ignored - see the counterexample). -/
theorem parseTime_colon_fraction_frames
    (a b c d : List Char) (fps : Rat)
    (ha : ∀ ch ∈ a, isDig ch = true) (hb : ∀ ch ∈ b, isDig ch = true)
    (hc : ∀ ch ∈ c, isDig ch = true) (hd : ∀ ch ∈ d, isDig ch = true)
    (hfps : fps ≠ 0) :
    parseTime (a ++ ':' :: (b ++ ':' :: (c ++ '.' :: d))) (some fps)
      = (decDigitsVal a : Rat) * 3600 + (decDigitsVal b : Rat) * 60
        + (decDigitsVal c : Rat) + (decDigitsVal d : Rat) / fps := by
  have hlow : jsToLower (a ++ ':' :: (b ++ ':' :: (c ++ '.' :: d)))
      = a ++ ':' :: (b ++ ':' :: (c ++ '.' :: d)) := by
    apply aux_jsToLower_fix
    intro ch hch
    simp only [List.mem_append, List.mem_cons] at hch
    rcases hch with h1 | rfl | h1 | rfl | h1 | rfl | h1
    · have := aux_isDig_toNat (ha ch h1); omega
    · decide
    · have := aux_isDig_toNat (hb ch h1); omega
    · decide
    · have := aux_isDig_toNat (hc ch h1); omega
    · decide
    · have := aux_isDig_toNat (hd ch h1); omega
  have hmem : ':' ∈ a ++ ':' :: (b ++ ':' :: (c ++ '.' :: d)) := by simp
  unfold parseTime
  simp only [Option.getD_some, hlow]
  rw [if_neg (by rintro (h | h) <;> (rw [h] at hmem; exact absurd hmem (by decide)))]
  rw [if_neg (by intro h; rw [h] at hmem; exact absurd hmem (by decide))]
  rw [aux_colon_eval a b c d fps ha hb hc hd hfps]
  rfl

/-- Claim C7 witness: the amended theorem applied to the concrete
timecode of the claim. -/
theorem parseTime_colon_fraction_frames_witness :
    parseTime "00:01:30.500".toList (some 24) = 0 * 3600 + 1 * 60 + 30 + 500 / 24 := by
  have h := parseTime_colon_fraction_frames "00".toList "01".toList "30".toList "500".toList 24
    (by decide) (by decide) (by decide) (by decide) (by norm_num)
  have hs : ("00".toList ++ ':' :: ("01".toList ++ ':' :: ("30".toList ++ '.' :: "500".toList)))
      = "00:01:30.500".toList := by decide
  rw [hs] at h
  rw [h, show decDigitsVal "00".toList = 0 from by decide,
      show decDigitsVal "01".toList = 1 from by decide,
      show decDigitsVal "30".toList = 30 from by decide,
      show decDigitsVal "500".toList = 500 from by decide]
  norm_num

/-- Claim C8: in the `parseCanvas` child loop, a defs child of an
inline canvas is a fatal error, while a keyframe child of an inline
canvas is skipped (with a warning) and the loop continues on the
remaining children; for a non-inline canvas a defs child is handed to
the defs parser and a keyframe child is parsed and appended. -/
theorem parseCanvas_inline_child_gating
    (pcd : List Child → CanvasV → St → Except String (CanvasV × St))
    (ats : List (String × String)) (ch rest : List Child)
    (canvas : CanvasV) (st : St) :
    parseCanvasKids pcd (Child.elem (Element.mk "defs" ats ch) :: rest) true canvas st
      = .error "Inline canvases cannot have defs" ∧
    parseCanvasKids pcd (Child.elem (Element.mk "keyframe" ats ch) :: rest) true canvas st
      = parseCanvasKids pcd rest true canvas st ∧
    parseCanvasKids pcd (Child.elem (Element.mk "defs" ats ch) :: rest) false canvas st
      = (match pcd ch canvas st with
         | .error msg => .error msg
         | .ok (canvas1, st1) => parseCanvasKids pcd rest false canvas1 st1) ∧
    parseCanvasKids pcd (Child.elem (Element.mk "keyframe" ats ch) :: rest) false canvas st
      = (match parseKeyframe (Element.mk "keyframe" ats ch) (some canvas) with
         | .error msg => .error msg
         | .ok kf => parseCanvasKids pcd rest false (Canvas.addKeyframe canvas kf) st) :=
  ⟨rfl, rfl, rfl, rfl⟩

set_option maxRecDepth 4000 in
/-- Claim C9: a literal time value element is parsed with the timestamp
parser given no fps (the source calls `parseTime(attrs.value)`), which
the first line of `parseTime` collapses to fps 0, so frame notation in
time literals falls under the no-fps leniency; by contrast the canvas
begin-time attribute is parsed with the canvas fps (witnessed on a
canvas with fps 24 and begin-time 24f, where the frame count divides by
the fps to give 1, while the same stamp with no fps gives 0). -/
theorem parseValue_time_unknown_fps :
    (∀ s : String, jsTruthyStr (some s) = true →
      parseValue (Element.mk "time" [("value", s)] [])
        = .ok (some (Value.mk "time" (some (.time (parseTime s.toList none)))
            (some false) (some .undef)))) ∧
    (∀ t : List Char, parseTime t none = parseTime t (some 0)) ∧
    parseCanvas (Element.mk "canvas" [("fps", "24"), ("begin-time", "24f")] []) none false
        { registry := [], guidCtr := 0, nodeCtr := 0 } = .ok (.cnv w9canvas, w9st) ∧
    w9canvas.data.timeStart = some (parseTime "24f".toList (jsParseFloat "24")) ∧
    parseTime "24f".toList (jsParseFloat "24") = 1 ∧
    parseTime "24f".toList none = 0 := by
  refine ⟨?_, fun t => rfl, rfl, rfl, ?_, ?_⟩
  · intro s hs
    have hat : parseValueAttribute (Element.mk "time" [("value", s)] []) = .ok s := by
      have hattr : (Element.mk "time" [("value", s)] []).attr "value" = some s := rfl
      unfold parseValueAttribute
      simp only [Element.children, Element.name, hattr]
      rw [if_pos hs]
      rfl
    have hbody : parseValueBody (parseValueF 1) (Element.mk "time" [("value", s)] [])
        = .ok (.thru (some (.time (parseTime s.toList none)))) := by
      unfold parseValueBody
      simp only [Element.name, Element.children, hat]
      rfl
    show parseValueF 2 (Element.mk "time" [("value", s)] []) = _
    rw [show (2:Nat) = 1 + 1 from rfl]
    unfold parseValueF
    rw [hbody]
    rfl
  · with_unfolding_all decide
  · with_unfolding_all decide

/-- Claim C9 witness: the literal-time part of the theorem applied to a
concrete nonempty value attribute. -/
theorem parseValue_time_unknown_fps_witness :
    jsTruthyStr (some "5s") = true ∧
    parseValue (Element.mk "time" [("value", "5s")] [])
      = .ok (some (Value.mk "time" (some (.time (parseTime "5s".toList none)))
          (some false) (some .undef))) :=
  ⟨by decide, parseValue_time_unknown_fps.1 "5s" (by decide)⟩

/-- Claim C10: a parsed keyframe's active flag is true exactly when the
active attribute is neither the string false nor the string 0: an
arbitrary attribute value is folded through the two inequality tests
with no validation (so an unrecognized value such as maybe gives true),
an absent attribute gives true, and only the time attribute is
required - a keyframe without it is a fatal error. -/
theorem parseKeyframe_active_leniency :
    (∀ (t a : String) (cv : Option CanvasV),
      parseKeyframe (Element.mk "keyframe" [("time", t), ("active", a)] []) cv
        = .ok { time := parseTime t.toList (cv.bind (fun c => c.data.fps)),
                active := (some a != some "false") && (some a != some "0"),
                desc := "" }) ∧
    (∀ a : String, (((some a != some "false") && (some a != some "0")) = true)
        ↔ (a ≠ "false" ∧ a ≠ "0")) ∧
    (∀ (t : String) (cv : Option CanvasV),
      parseKeyframe (Element.mk "keyframe" [("time", t)] []) cv
        = .ok { time := parseTime t.toList (cv.bind (fun c => c.data.fps)),
                active := true, desc := "" }) ∧
    (∀ (a : String) (cv : Option CanvasV),
      parseKeyframe (Element.mk "keyframe" [("active", a)] []) cv
        = .error "<keyframe> is missing attribute time") := by
  refine ⟨fun t a cv => rfl, ?_, fun t cv => rfl, fun a cv => rfl⟩
  intro a
  simp [bne]
